import Mathlib

/-!
Shallow embedding of the `lcd` crate (`src/lib.rs`), a driver for
HD44780-compatible character LCDs.

The driver is stateless: every public operation deterministically emits a
sequence of calls to the `Hardware`/`Delay` traits (`rs`, `enable`, `data`,
`delay_us`).  We model that call sequence as a list of `Event`s and translate
each Rust method into a Lean function producing the trace it emits.  The
default `wait_address` implementation is a no-op and contributes no event,
matching the hardware used throughout the crate's own tests.  Bytes are
modelled as `Nat` values below 256.
-/

namespace Lcd

/-- One call into the hardware abstraction layer. -/
inductive Event : Type
  | rs (bit : Bool)
  | enable (bit : Bool)
  | data (value : Nat)
  | delay (usec : Nat)
deriving DecidableEq, Repr

/-- `enum FunctionMode` from the source. -/
inductive FunctionMode : Type
  | Bit4
  | Bit8
deriving DecidableEq, Repr

/-- Discriminant values of `FunctionMode` (`Bit4 = 0x00`, `Bit8 = 0x10`). -/
def FunctionMode.code : FunctionMode → Nat
  | .Bit4 => 0x00
  | .Bit8 => 0x10

/-- `enum FunctionDots` from the source. -/
inductive FunctionDots : Type
  | Dots5x8
  | Dots5x10
deriving DecidableEq, Repr

/-- Discriminant values of `FunctionDots`. -/
def FunctionDots.code : FunctionDots → Nat
  | .Dots5x8 => 0x00
  | .Dots5x10 => 0x04

/-- `enum FunctionLine` from the source. -/
inductive FunctionLine : Type
  | Line1
  | Line2
deriving DecidableEq, Repr

/-- Discriminant values of `FunctionLine`. -/
def FunctionLine.code : FunctionLine → Nat
  | .Line1 => 0x00
  | .Line2 => 0x08

/-- `enum DisplayBlink` from the source. -/
inductive DisplayBlink : Type
  | BlinkOff
  | BlinkOn
deriving DecidableEq, Repr

/-- Discriminant values of `DisplayBlink`. -/
def DisplayBlink.code : DisplayBlink → Nat
  | .BlinkOff => 0x00
  | .BlinkOn => 0x01

/-- `enum DisplayCursor` from the source. -/
inductive DisplayCursor : Type
  | CursorOff
  | CursorOn
deriving DecidableEq, Repr

/-- Discriminant values of `DisplayCursor`. -/
def DisplayCursor.code : DisplayCursor → Nat
  | .CursorOff => 0x00
  | .CursorOn => 0x02

/-- `enum DisplayMode` from the source. -/
inductive DisplayMode : Type
  | DisplayOff
  | DisplayOn
deriving DecidableEq, Repr

/-- Discriminant values of `DisplayMode`. -/
def DisplayMode.code : DisplayMode → Nat
  | .DisplayOff => 0x00
  | .DisplayOn => 0x04

/-- `enum Direction` from the source. -/
inductive Direction : Type
  | Left
  | Right
deriving DecidableEq, Repr

/-- Discriminant values of `Direction`. -/
def Direction.code : Direction → Nat
  | .Left => 0x00
  | .Right => 0x04

/-- `enum Scroll` from the source. -/
inductive Scroll : Type
  | CursorMove
  | DisplayMove
deriving DecidableEq, Repr

/-- Discriminant values of `Scroll`. -/
def Scroll.code : Scroll → Nat
  | .CursorMove => 0x00
  | .DisplayMove => 0x08

/-- `enum EntryModeDirection` from the source. -/
inductive EntryModeDirection : Type
  | EntryLeft
  | EntryRight
deriving DecidableEq, Repr

/-- Discriminant values of `EntryModeDirection`. -/
def EntryModeDirection.code : EntryModeDirection → Nat
  | .EntryLeft => 0x00
  | .EntryRight => 0x02

/-- `enum EntryModeShift` from the source. -/
inductive EntryModeShift : Type
  | NoShift
  | Shift
deriving DecidableEq, Repr

/-- Discriminant values of `EntryModeShift`. -/
def EntryModeShift.code : EntryModeShift → Nat
  | .NoShift => 0x00
  | .Shift => 0x01

/-- `enum Command` from the source. -/
inductive Command : Type
  | ClearDisplay
  | ReturnHome
  | EntryModeSet
  | DisplayControl
  | CursorShift
  | FunctionSet
  | SetCGRamAddr
  | SetDDRamAddr
deriving DecidableEq, Repr

/-- Discriminant values of `Command`. -/
def Command.code : Command → Nat
  | .ClearDisplay => 0x01
  | .ReturnHome => 0x02
  | .EntryModeSet => 0x04
  | .DisplayControl => 0x08
  | .CursorShift => 0x10
  | .FunctionSet => 0x20
  | .SetCGRamAddr => 0x40
  | .SetDDRamAddr => 0x80

/-- `Display::pulse_enable`: enable high, 1µs delay, enable low. -/
def pulse_enable : List Event :=
  [.enable true, .delay 1, .enable false]

/-- `Display::send_data`: set the data lines, then pulse enable. -/
def send_data (d : Nat) : List Event :=
  .data d :: pulse_enable

/-- `Display::send`: one full-byte pulse in 8-bit mode, high nibble then low
nibble in 4-bit mode. -/
def send (mode : FunctionMode) (d : Nat) : List Event :=
  match mode with
  | .Bit8 => send_data d
  | .Bit4 => send_data (d >>> 4) ++ send_data (d &&& 0xf)

/-- `Display::wait_ready`: a single blocking delay (no busy-flag support in
this crate). -/
def wait_ready (delay : Nat) : List Event :=
  [.delay delay]

/-- `Display::wait_ready_default`: the typical 50µs instruction wait. -/
def wait_ready_default : List Event :=
  wait_ready 50

/-- `Display::command`: register-select low, address-setup wait (no-op by
default), send the byte, default readiness wait. -/
def command (mode : FunctionMode) (cmd : Nat) : List Event :=
  .rs false :: (send mode cmd ++ wait_ready_default)

/-- `Display::write`: register-select high, send the byte, default readiness
wait, then the extra 5µs address-counter-update delay. -/
def write (mode : FunctionMode) (d : Nat) : List Event :=
  .rs true :: (send mode d ++ wait_ready_default ++ [.delay 5])

/-- `Display::clear`: clear-display command plus the 2000µs worst-case wait. -/
def clear (mode : FunctionMode) : List Event :=
  command mode Command.ClearDisplay.code ++ wait_ready 2000

/-- `Display::home`: return-home command plus the 2000µs worst-case wait. -/
def home (mode : FunctionMode) : List Event :=
  command mode Command.ReturnHome.code ++ wait_ready 2000

/-- `Display::entry_mode`. -/
def entry_mode (mode : FunctionMode) (dir : EntryModeDirection)
    (scroll : EntryModeShift) : List Event :=
  command mode (Command.EntryModeSet.code ||| dir.code ||| scroll.code)

/-- `Display::display`. -/
def display (mode : FunctionMode) (d : DisplayMode) (c : DisplayCursor)
    (b : DisplayBlink) : List Event :=
  command mode (Command.DisplayControl.code ||| d.code ||| c.code ||| b.code)

/-- `Display::scroll`. -/
def scroll (mode : FunctionMode) (dir : Direction) : List Event :=
  command mode (Command.CursorShift.code ||| Scroll.DisplayMove.code ||| dir.code)

/-- `Display::cursor`. -/
def cursor (mode : FunctionMode) (dir : Direction) : List Event :=
  command mode (Command.CursorShift.code ||| Scroll.CursorMove.code ||| dir.code)

/-- The `match row` offset table inside `Display::position`. -/
def rowOffset (row : Nat) : Nat :=
  match row with
  | 1 => 0x40
  | 2 => 0x14
  | 3 => 0x54
  | _ => 0

/-- `Display::position`: `col + offset` is a `u8` addition, which panics on
overflow in checked builds; we model the panic as `none`. -/
def position (mode : FunctionMode) (col row : Nat) : Option (List Event) :=
  if col + rowOffset row ≤ 255 then
    some (command mode (Command.SetDDRamAddr.code ||| (col + rowOffset row)))
  else
    none

/-- `Display::print`: the `for` loop over the string's bytes. -/
def print (mode : FunctionMode) : List Nat → List Event
  | [] => []
  | c :: rest => write mode c ++ print mode rest

/-- `Display::upload_character`: `assert!(location <= 7)` modelled as `none`;
otherwise the set-CGRAM-address command followed by the (at most 8) glyph
rows written as data. -/
def upload_character (mode : FunctionMode) (location : Nat)
    (map : List Nat) : Option (List Event) :=
  if location ≤ 7 then
    some (command mode (Command.SetCGRamAddr.code ||| ((location &&& 0x7) <<< 3)) ++
      ((map.take 8).map (write mode)).flatten)
  else
    none

/-- `Display::init`: the mode-dependent bootstrap followed by the final
function-set, display-off, clear and entry-mode commands. -/
def init (mode : FunctionMode) (line : FunctionLine)
    (dots : FunctionDots) : List Event :=
  .rs false ::
    ((match mode with
      | .Bit8 =>
          send_data (Command.FunctionSet.code ||| FunctionMode.Bit8.code |||
              FunctionLine.Line2.code ||| FunctionDots.Dots5x10.code) ++
            [.delay 4500] ++ pulse_enable ++ [.delay 150] ++ pulse_enable ++
            wait_ready_default
      | .Bit4 =>
          send_data ((Command.FunctionSet.code ||| FunctionMode.Bit8.code) >>> 4) ++
            [.delay 4500] ++ pulse_enable ++ [.delay 150] ++ pulse_enable ++
            wait_ready_default ++
            send_data ((Command.FunctionSet.code ||| FunctionMode.Bit4.code) >>> 4) ++
            wait_ready_default) ++
      command mode (Command.FunctionSet.code ||| mode.code ||| line.code ||| dots.code) ++
      display mode .DisplayOff .CursorOff .BlinkOff ++
      clear mode ++
      entry_mode mode .EntryRight .NoShift)

/-- `true` iff every enable-high event in the trace is immediately followed by
a 1µs delay and then an enable-low event (and no stray enable event occurs):
the enable line is only ever driven in complete strobes and is left low. -/
def enableDiscipline : List Event → Bool
  | [] => true
  | .rs _ :: rest => enableDiscipline rest
  | .data _ :: rest => enableDiscipline rest
  | .delay _ :: rest => enableDiscipline rest
  | .enable true :: .delay 1 :: .enable false :: rest => enableDiscipline rest
  | _ => false

end Lcd

open Lcd

/-- **C1.** `init(Line2, Dots5x8)` on a 4-bit-mode display (no busy-flag
support) produces exactly the hardware trace: register-select low, nibble 0x3
pulsed, delay 4500µs, pulse repeated, delay 150µs, pulse repeated, delay 50µs,
nibble 0x2 pulsed, delay 50µs, then function-set 0x28 as nibbles 0x2, 0x8
pulsed followed by delay 50µs, then display-control 0x08 as nibbles 0x0, 0x8
followed by delay 50µs, then clear 0x01 as nibbles 0x0, 0x1 followed by delay
50µs and delay 2000µs, then entry-mode 0x06 as nibbles 0x0, 0x6 followed by
delay 50µs (each command begins by driving register-select low). -/
theorem init_4bit_trace :
    init .Bit4 .Line2 .Dots5x8 =
      [.rs false,
       .data 0x3, .enable true, .delay 1, .enable false, .delay 4500,
       .enable true, .delay 1, .enable false, .delay 150,
       .enable true, .delay 1, .enable false, .delay 50,
       .data 0x2, .enable true, .delay 1, .enable false, .delay 50,
       .rs false,
       .data 0x2, .enable true, .delay 1, .enable false,
       .data 0x8, .enable true, .delay 1, .enable false, .delay 50,
       .rs false,
       .data 0x0, .enable true, .delay 1, .enable false,
       .data 0x8, .enable true, .delay 1, .enable false, .delay 50,
       .rs false,
       .data 0x0, .enable true, .delay 1, .enable false,
       .data 0x1, .enable true, .delay 1, .enable false, .delay 50, .delay 2000,
       .rs false,
       .data 0x0, .enable true, .delay 1, .enable false,
       .data 0x6, .enable true, .delay 1, .enable false, .delay 50] := by
  rfl

/-- **C2.** For every byte `b`: in 4-bit mode `send(b)` produces exactly two
nibble pulses, first `b >> 4` then `b & 0xF`; in 8-bit mode exactly one pulse
of the full byte.  Each pulse sets the data lines to the value, raises enable,
blocks for (at least) 1µs, and lowers enable. -/
theorem send_trace (b : Nat) (_hb : b < 256) :
    send .Bit4 b =
      [.data (b >>> 4), .enable true, .delay 1, .enable false,
       .data (b &&& 0xf), .enable true, .delay 1, .enable false] ∧
    send .Bit8 b =
      [.data b, .enable true, .delay 1, .enable false] := by
  exact ⟨rfl, rfl⟩

/-- Witness for C2 at the concrete byte 0xAB. -/
theorem send_trace_witness :
    send .Bit4 0xAB =
      [.data 0xA, .enable true, .delay 1, .enable false,
       .data 0xB, .enable true, .delay 1, .enable false] ∧
    send .Bit8 0xAB =
      [.data 0xAB, .enable true, .delay 1, .enable false] := by
  have h := send_trace 0xAB (by decide)
  exact ⟨by rw [h.1]; decide, by rw [h.2]⟩

/-- **C3.** `init(Line2, Dots5x8)` on an 8-bit-mode display sends the
function-set byte 0x3C once and pulse-repeats it twice, with delays 4500µs and
150µs between the three attempts, and after the bootstrap performs in order the
final function-set 0x38, display-control 0x08, clear 0x01 (with the 2000µs
wait) and entry-mode 0x06, each as a single full-byte pulse (each command
begins by driving register-select low). -/
theorem init_8bit_trace :
    init .Bit8 .Line2 .Dots5x8 =
      [.rs false,
       .data 0x3C, .enable true, .delay 1, .enable false, .delay 4500,
       .enable true, .delay 1, .enable false, .delay 150,
       .enable true, .delay 1, .enable false, .delay 50,
       .rs false,
       .data 0x38, .enable true, .delay 1, .enable false, .delay 50,
       .rs false,
       .data 0x08, .enable true, .delay 1, .enable false, .delay 50,
       .rs false,
       .data 0x01, .enable true, .delay 1, .enable false, .delay 50, .delay 2000,
       .rs false,
       .data 0x06, .enable true, .delay 1, .enable false, .delay 50] := by
  rfl

/-- **C4.** `position(col, row)` maps row 0 to DDRAM offset 0x00, row 1 to
0x40, row 2 to 0x14, row 3 to 0x54 and any other row to offset 0, and (when
the `u8` addition does not overflow) issues exactly one command whose byte is
0x80 OR-ed with `col + offset`. -/
theorem position_spec (mode : FunctionMode) (col row : Nat)
    (h : col + rowOffset row ≤ 255) :
    position mode col row =
      some (command mode (0x80 ||| (col + rowOffset row))) ∧
    rowOffset 0 = 0x00 ∧ rowOffset 1 = 0x40 ∧ rowOffset 2 = 0x14 ∧
    rowOffset 3 = 0x54 ∧
    (∀ r, r ≠ 1 → r ≠ 2 → r ≠ 3 → rowOffset r = 0) := by
  refine ⟨?_, rfl, rfl, rfl, rfl, ?_⟩
  · simp [position, h, Command.code]
  · intro r h1 h2 h3
    match r with
    | 0 => rfl
    | 1 => exact absurd rfl h1
    | 2 => exact absurd rfl h2
    | 3 => exact absurd rfl h3
    | n + 4 => rfl

/-- Witness for C4 at `position(7, 2)`: the issued set-DDRAM-address value is
0x14 + 7 = 0x1B, i.e. the command byte is 0x80 ||| 0x1B = 0x9B. -/
theorem position_spec_witness :
    position .Bit4 7 2 = some (command .Bit4 0x9B) ∧ (0x80 ||| (7 + rowOffset 2)) = 0x9B := by
  have h := position_spec .Bit4 7 2 (by decide)
  refine ⟨?_, by decide⟩
  rw [h.1]
  rfl

/-- **C9.** `position(col, row)` is total only when `col + offset` fits in 8
bits: for byte-valued inputs the unchecked `u8` addition overflows (modelled
as `none`, a panic in checked builds) exactly when row = 1 and col > 0xBF,
row = 2 and col > 0xEB, or row = 3 and col > 0xAB. -/
theorem position_overflow (mode : FunctionMode) (col row : Nat)
    (hc : col ≤ 255) (hr : row ≤ 255) :
    position mode col row = none ↔
      (row = 1 ∧ 0xBF < col) ∨ (row = 2 ∧ 0xEB < col) ∨ (row = 3 ∧ 0xAB < col) := by
  match row with
  | 0 => simp [position, rowOffset, hc]
  | 1 => simp [position, rowOffset]
  | 2 => simp [position, rowOffset]
  | 3 => simp [position, rowOffset]
  | n + 4 =>
    have : rowOffset (n + 4) = 0 := rfl
    simp [position, this, hc]

/-- Witness for C9: `position(0xC0, 1)` overflows while `position(0xBF, 1)`
does not. -/
theorem position_overflow_witness :
    position .Bit4 0xC0 1 = none ∧ position .Bit4 0xBF 1 ≠ none := by
  constructor
  · exact (position_overflow .Bit4 0xC0 1 (by decide) (by decide)).mpr
      (Or.inl ⟨rfl, by decide⟩)
  · decide

/-- Helper: the empty trace satisfies the enable discipline. -/
theorem enableDiscipline_nil : enableDiscipline [] = true := rfl

/-- Helper: an `rs` event never affects the enable discipline. -/
theorem enableDiscipline_cons_rs (b : Bool) (t : List Event) :
    enableDiscipline (.rs b :: t) = enableDiscipline t := rfl

/-- Helper: a `data` event never affects the enable discipline. -/
theorem enableDiscipline_cons_data (d : Nat) (t : List Event) :
    enableDiscipline (.data d :: t) = enableDiscipline t := rfl

/-- Helper: a standalone delay never affects the enable discipline. -/
theorem enableDiscipline_cons_delay (d : Nat) (t : List Event) :
    enableDiscipline (.delay d :: t) = enableDiscipline t := rfl

/-- Helper: a complete enable strobe preserves the enable discipline. -/
theorem enableDiscipline_strobe (t : List Event) :
    enableDiscipline (.enable true :: .delay 1 :: .enable false :: t) =
      enableDiscipline t := rfl

/-- Helper: `send` emits only data events and complete strobes. -/
theorem enableDiscipline_send (mode : FunctionMode) (d : Nat) (t : List Event) :
    enableDiscipline (send mode d ++ t) = enableDiscipline t := by
  cases mode <;>
    simp [send, send_data, pulse_enable, enableDiscipline_cons_data,
      enableDiscipline_strobe]

/-- Helper: `command` leaves the enable line as the discipline demands. -/
theorem enableDiscipline_command (mode : FunctionMode) (c : Nat) (t : List Event) :
    enableDiscipline (command mode c ++ t) = enableDiscipline t := by
  simp [command, wait_ready_default, wait_ready, enableDiscipline_cons_rs,
    enableDiscipline_cons_delay, enableDiscipline_send]

/-- Helper: a bare `command` trace satisfies the enable discipline. -/
theorem enableDiscipline_command_nil (mode : FunctionMode) (c : Nat) :
    enableDiscipline (command mode c) = true := by
  have h := enableDiscipline_command mode c []
  simpa using h

/-- Helper: `write` leaves the enable line as the discipline demands. -/
theorem enableDiscipline_write (mode : FunctionMode) (b : Nat) (t : List Event) :
    enableDiscipline (write mode b ++ t) = enableDiscipline t := by
  simp [write, wait_ready_default, wait_ready, enableDiscipline_cons_rs,
    enableDiscipline_cons_delay, enableDiscipline_send]

/-- Helper: a block of consecutive `write`s preserves the enable discipline. -/
theorem enableDiscipline_writes (mode : FunctionMode) (l : List Nat) (t : List Event) :
    enableDiscipline ((l.map (write mode)).flatten ++ t) = enableDiscipline t := by
  induction l with
  | nil => simp
  | cons c rest ih => simp [enableDiscipline_write, ih]

/-- **C5.** For every slot ≤ 7 and every 8-byte glyph, `upload_character`
issues exactly one set-CGRAM-address command with address `slot * 8`, then
performs exactly 8 data writes equal to the 8 glyph bytes in order, each write
followed by the default readiness wait and the 5µs post-write delay. -/
theorem upload_character_trace (mode : FunctionMode) (location : Nat)
    (map : List Nat) (hloc : location ≤ 7) (hlen : map.length = 8) :
    upload_character mode location map =
      some (command mode (0x40 ||| (location * 8)) ++
        ((map.map (write mode)).flatten)) ∧
    (∀ b, write mode b = .rs true :: (send mode b ++ [.delay 50, .delay 5])) := by
  constructor
  · have htake : map.take 8 = map := List.take_of_length_le (by omega)
    have hshift : (location &&& 0x7) <<< 3 = location * 8 := by
      interval_cases location <;> rfl
    simp [upload_character, hloc, htake, hshift, Command.code]
  · intro b
    simp [write, wait_ready_default, wait_ready]

/-- Witness for C5 at slot 3 with the arrow glyph from the crate's tests: the
set-CGRAM-address command byte is 0x40 ||| 0x18 = 0x58. -/
theorem upload_character_trace_witness :
    upload_character .Bit4 3 [0x00, 0x08, 0x0C, 0x0E, 0x1F, 0x0E, 0x0C, 0x08] =
      some (command .Bit4 0x58 ++
        (([0x00, 0x08, 0x0C, 0x0E, 0x1F, 0x0E, 0x0C, 0x08].map
          (write .Bit4))).flatten) ∧
    write .Bit4 0x1F = .rs true :: (send .Bit4 0x1F ++ [.delay 50, .delay 5]) := by
  have h := upload_character_trace .Bit4 3
    [0x00, 0x08, 0x0C, 0x0E, 0x1F, 0x0E, 0x0C, 0x08] (by decide) (by decide)
  exact ⟨by rw [h.1]; decide, h.2 0x1F⟩

/-- **C6.** `upload_character(location, map)` fails fast and fatally (the
`assert!`, modelled as `none`) if and only if `location > 7`; the assertion is
the first statement of the method, so on failure no hardware operation is
issued and the emitted trace is empty. -/
theorem upload_character_panics_iff (mode : FunctionMode) (location : Nat)
    (map : List Nat) :
    upload_character mode location map = none ↔ 7 < location := by
  unfold upload_character
  split
  · next h => exact iff_of_false (by simp) (by omega)
  · next h => exact iff_of_true rfl (by omega)

/-- **C7.** When busy-polling is unsupported (as in this crate), every
readiness wait is a single blocking delay of the fallback duration and nothing
else; the default per-instruction wait is exactly one 50µs delay, and `clear`
and `home` each additionally perform exactly one 2000µs delay after their
command's default wait. -/
theorem wait_ready_single_delay (mode : FunctionMode) (d : Nat) :
    wait_ready d = [.delay d] ∧
    wait_ready_default = [.delay 50] ∧
    clear mode = .rs false :: (send mode 0x01 ++ [.delay 50, .delay 2000]) ∧
    home mode = .rs false :: (send mode 0x02 ++ [.delay 50, .delay 2000]) := by
  refine ⟨rfl, rfl, ?_, ?_⟩ <;>
    simp [clear, home, command, wait_ready_default, wait_ready, Command.code]

/-- **C8.** The trace of `print(s)` is the left-to-right concatenation of the
traces of `write(b)` for the bytes `b` of `s` (so printing the empty string
emits nothing), and every `write(b)` sets register-select to data, sends `b`,
performs the default readiness wait, then a fixed 5µs delay. -/
theorem print_concat_writes (mode : FunctionMode) (s : List Nat) :
    print mode s = (s.map (write mode)).flatten ∧
    print mode [] = [] ∧
    (∀ b, write mode b = .rs true :: (send mode b ++ [.delay 50, .delay 5])) := by
  refine ⟨?_, rfl, ?_⟩
  · induction s with
    | nil => rfl
    | cons c rest ih => simp [print, ih]
  · intro b
    simp [write, wait_ready_default, wait_ready]

/-- **C10.** Every public operation leaves the enable line low: in every trace
it emits, each enable-high event is immediately followed by one 1µs delay and
an enable-low event before any other hardware signal change. -/
theorem enable_left_low :
    (∀ mode line dots, enableDiscipline (init mode line dots) = true) ∧
    (∀ mode, enableDiscipline (clear mode) = true) ∧
    (∀ mode, enableDiscipline (home mode) = true) ∧
    (∀ mode dir sh, enableDiscipline (entry_mode mode dir sh) = true) ∧
    (∀ mode d c b, enableDiscipline (display mode d c b) = true) ∧
    (∀ mode dir, enableDiscipline (scroll mode dir) = true) ∧
    (∀ mode dir, enableDiscipline (cursor mode dir) = true) ∧
    (∀ mode col row t, position mode col row = some t →
      enableDiscipline t = true) ∧
    (∀ mode s, enableDiscipline (print mode s) = true) ∧
    (∀ mode b, enableDiscipline (write mode b) = true) ∧
    (∀ mode location map t, upload_character mode location map = some t →
      enableDiscipline t = true) := by
  have hwrite : ∀ mode b, enableDiscipline (write mode b) = true := by
    intro mode b
    have h := enableDiscipline_write mode b []
    simpa using h
  have hprint : ∀ mode s, enableDiscipline (print mode s) = true := by
    intro mode s
    induction s with
    | nil => rfl
    | cons c rest ih => simp [print, enableDiscipline_write, ih]
  refine ⟨?_, ?_, ?_, ?_, ?_, ?_, ?_, ?_, hprint, hwrite, ?_⟩
  · intro mode line dots
    cases mode <;>
      simp [init, display, clear, entry_mode, wait_ready, wait_ready_default,
        send_data, pulse_enable, enableDiscipline_cons_rs,
        enableDiscipline_cons_data, enableDiscipline_cons_delay,
        enableDiscipline_strobe, enableDiscipline_command,
        enableDiscipline_command_nil]
  · intro mode
    simp [clear, wait_ready, enableDiscipline_command,
      enableDiscipline_cons_delay, enableDiscipline_nil]
  · intro mode
    simp [home, wait_ready, enableDiscipline_command,
      enableDiscipline_cons_delay, enableDiscipline_nil]
  · intro mode dir sh
    exact enableDiscipline_command_nil mode _
  · intro mode d c b
    exact enableDiscipline_command_nil mode _
  · intro mode dir
    exact enableDiscipline_command_nil mode _
  · intro mode dir
    exact enableDiscipline_command_nil mode _
  · intro mode col row t h
    unfold position at h
    split at h
    · cases h
      exact enableDiscipline_command_nil mode _
    · cases h
  · intro mode location map t h
    unfold upload_character at h
    split at h
    · cases h
      rw [enableDiscipline_command]
      have h2 := enableDiscipline_writes mode (map.take 8) []
      simpa using h2
    · cases h
